import Mathlib

/-!
Verification of the Pixels dice protocol layer (`pixels.py`).

Shallow embedding notes.

* A wire message is a byte list (`List Nat`); its first byte is the
  `MessageType` value.
* The bluepy transport delivers at most one inbound message per
  `waitForNotifications` call; one such call is modelled by an optional
  delivered message, paired with the `time.perf_counter() - t0` reading the
  correlator takes after the iteration.  A `WaitEnv` is the schedule of
  these wait outcomes for one blocking call.
* `Event` lives in `utils.py`, which is not among the sources; its
  attach/detach/notify behaviour is modelled from the spec (attach appends a
  callback, detach removes it, notify calls all callbacks in attachment
  order).  Traces record attach/detach of observer identities, transport
  writes, and waits; observers receive fresh identities from a counter.
* `integer_to_bytes` also lives in `utils.py`; it is modelled from the
  spec's wire format (little-endian byte split).
* Failure paths (`raise`, failed asserts, Python runtime errors) are
  modelled with `Except`; `time` is modelled by the rationals.
-/

/-- Decidable equality on `Except`, so that concrete runs of the model can be
checked by `decide`. -/
instance {ε α : Type} [DecidableEq ε] [DecidableEq α] : DecidableEq (Except ε α) := fun a b =>
  match a, b with
  | .ok x, .ok y =>
    if h : x = y then .isTrue (by rw [h]) else .isFalse (by intro hc; cases hc; exact h rfl)
  | .ok _, .error _ => .isFalse (by intro hc; cases hc)
  | .error _, .ok _ => .isFalse (by intro hc; cases hc)
  | .error x, .error y =>
    if h : x = y then .isTrue (by rw [h]) else .isFalse (by intro hc; cases hc; exact h rfl)

namespace Pixels

/-- A wire message: `msg[0]` is the `MessageType` byte, the rest is payload. -/
abbrev Msg := List Nat

/-- The `MessageType` `IntEnum` of `pixels.py` has the contiguous values
`_None = 0` through `ProgramDefaultParametersFinished = 38`; `MessageType(b)`
succeeds exactly for bytes in that range. -/
def isValidMessageType (b : Nat) : Bool := b ≤ 38

/-- Python truthiness of `self._dtype`: `None` is falsy, and so is
`DiceType._None = 0`; the other `DiceType` values (1, 2) are truthy. -/
def dtypeTruthy : Option Nat → Bool
  | none => false
  | some d => d != 0

/-- The mutable attributes of a `PixelLink` session that the dispatcher can
touch: `_dtype`, `_face_up`, `_battery_voltage`.  `battery_voltage = none`
models the attribute not yet being set by `__init__` (reading it then is an
`AttributeError`). -/
structure SessionState where
  dtype : Option Nat
  face_up : Nat
  battery_voltage : Option ℚ
deriving DecidableEq

/-- Observable event-bus notifications fired by the session. -/
inductive Ev where
  | messageReceived (m : Msg)
  | faceUpChanged (v : Nat)
  | batteryVoltageChanged (v : ℚ)
deriving DecidableEq

/-- Python runtime errors that the dispatch code can raise. -/
inductive PyErr where
  | indexError
  | valueError
  | typeError
  | structError
  | attributeError
  | unicodeDecodeError
deriving DecidableEq

/-- Modelled from Python's `bytes(...).decode("utf-8")` (strict): `true` iff
every element is a byte and the byte string is well-formed UTF-8 (RFC 3629:
continuation ranges per leading byte, surrogates and over-long forms
rejected, as CPython's strict decoder does).  An element above 255 would make
the `bytes(...)` constructor itself raise; that failure is folded into this
check, since either way the statement raises before doing anything else. -/
def isValidUtf8 : List Nat → Bool
  | [] => true
  | b :: rest =>
    if b ≤ 0x7F then isValidUtf8 rest
    else if 0xC2 ≤ b ∧ b ≤ 0xDF then
      match rest with
      | c1 :: rest2 =>
        if 0x80 ≤ c1 ∧ c1 ≤ 0xBF then isValidUtf8 rest2 else false
      | [] => false
    else if b = 0xE0 then
      match rest with
      | c1 :: c2 :: rest2 =>
        if (0xA0 ≤ c1 ∧ c1 ≤ 0xBF) ∧ (0x80 ≤ c2 ∧ c2 ≤ 0xBF) then isValidUtf8 rest2
        else false
      | _ => false
    else if (0xE1 ≤ b ∧ b ≤ 0xEC) ∨ b = 0xEE ∨ b = 0xEF then
      match rest with
      | c1 :: c2 :: rest2 =>
        if (0x80 ≤ c1 ∧ c1 ≤ 0xBF) ∧ (0x80 ≤ c2 ∧ c2 ≤ 0xBF) then isValidUtf8 rest2
        else false
      | _ => false
    else if b = 0xED then
      match rest with
      | c1 :: c2 :: rest2 =>
        if (0x80 ≤ c1 ∧ c1 ≤ 0x9F) ∧ (0x80 ≤ c2 ∧ c2 ≤ 0xBF) then isValidUtf8 rest2
        else false
      | _ => false
    else if b = 0xF0 then
      match rest with
      | c1 :: c2 :: c3 :: rest2 =>
        if (0x90 ≤ c1 ∧ c1 ≤ 0xBF) ∧ (0x80 ≤ c2 ∧ c2 ≤ 0xBF) ∧ (0x80 ≤ c3 ∧ c3 ≤ 0xBF)
        then isValidUtf8 rest2 else false
      | _ => false
    else if 0xF1 ≤ b ∧ b ≤ 0xF3 then
      match rest with
      | c1 :: c2 :: c3 :: rest2 =>
        if (0x80 ≤ c1 ∧ c1 ≤ 0xBF) ∧ (0x80 ≤ c2 ∧ c2 ≤ 0xBF) ∧ (0x80 ≤ c3 ∧ c3 ≤ 0xBF)
        then isValidUtf8 rest2 else false
      | _ => false
    else if b = 0xF4 then
      match rest with
      | c1 :: c2 :: c3 :: rest2 =>
        if (0x80 ≤ c1 ∧ c1 ≤ 0x8F) ∧ (0x80 ≤ c2 ∧ c2 ≤ 0xBF) ∧ (0x80 ≤ c3 ∧ c3 ≤ 0xBF)
        then isValidUtf8 rest2 else false
      | _ => false
    else false

/-- Modelled from the spec: `integer_to_bytes` from `utils.py` (a file of this
repository that is not among the sources) splits an integer into `n` bytes;
the spec fixes the wire format to little-endian ("Bulk setup payload = 2-byte
little-endian total length", "[offsetLow:1][offsetHigh:1]"). -/
def integer_to_bytes : Nat → Nat → List Nat
  | _, 0 => []
  | v, n + 1 => v % 256 :: integer_to_bytes (v / 256) n

/-- Modelled from Python's `struct.unpack('<f', ...)`: an IEEE-754 binary32
value read little-endian, as a rational.  Infinities and NaN (exponent 255)
have no rational value; they are mapped to an out-of-range sentinel, which no
claim exercises. -/
def decodeFloat32 (b0 b1 b2 b3 : Nat) : ℚ :=
  let bits : Nat := b0 + 256 * b1 + 65536 * b2 + 16777216 * b3
  let sign : Nat := bits / 2 ^ 31
  let e : Nat := bits / 2 ^ 23 % 256
  let m : Nat := bits % 2 ^ 23
  let mag : ℚ :=
    if e = 0 then (m : ℚ) / 2 ^ 149
    else if e = 255 then 2 ^ 128
    else if e ≤ 150 then ((2 ^ 23 + m : Nat) : ℚ) / 2 ^ (150 - e)
    else ((2 ^ 23 + m : Nat) : ℚ) * 2 ^ (e - 150)
  if sign = 1 then -mag else mag

/-- `PixelLink._update_state(state, face)`: the new face-up value is
`face + 1` when `state == 1` and `0` otherwise; the event fires only when the
value actually changes.  Returns the new `_face_up` and the fired events. -/
def update_state (face_up state face : Nat) : Nat × List Ev :=
  let f := if state = 1 then face + 1 else 0
  if face_up ≠ f then (f, [.faceUpChanged f]) else (face_up, [])

/-- `PixelLink._update_battery_voltage(voltage)`: compares with the stored
attribute (AttributeError if `__init__` has not set it yet) and fires the
event only on an actual change.  Returns the new `_battery_voltage` and the
fired events. -/
def update_battery_voltage (old : Option ℚ) (v : ℚ) : Except PyErr (ℚ × List Ev) :=
  match old with
  | none => .error .attributeError
  | some o => if o ≠ v then .ok (v, [.batteryVoltageChanged v]) else .ok (o, [])

/-- `PixelLink._notify_user(msg)`: unpacks `timeout, ok, cancel = msg[1:4]`
(a `ValueError` when fewer than three values follow the kind byte), decodes
the text `bytes(msg[4:]).decode("utf-8")` — which raises before anything is
sent when the tail is not valid UTF-8 — then prompts the user (`prompt` is
the collaborator's decision), forces "continue" when cancellation is not
permitted (`ok and cancel` falsy), and sends `NotifyUserAck` (32) carrying 1
or 0.  Returns the sent messages and the boolean result. -/
def notify_user (prompt : Bool) (msg : Msg) : Except PyErr (List Msg × Bool) :=
  match msg with
  | _k :: _t :: okFlag :: cancelFlag :: rest =>
    if isValidUtf8 rest then
      let can_abort := okFlag != 0 && cancelFlag != 0
      let okDecision := if can_abort then prompt else true
      .ok ([[32, if okDecision then 1 else 0]], okDecision)
    else .error .unicodeDecodeError
  | _ => .error .valueError

/-- `PixelLink._process_message(msg)`: the inbound dispatcher.  `traceOn`
models the class attribute `PixelLink._trace` (default `False`); when it is
set, the trace print evaluates `MessageType(msg[0])`, which raises
`ValueError` on an unrecognized kind byte.  Branches: `IAmADie` (2) sets
`_dtype` once (`DiceType(msg[1])` raises on values above 2), `DebugLog` (13)
decodes the payload as UTF-8 (raising on malformed bytes) and prints it,
`BatteryLevel` (28) decodes a 4-byte little-endian float, `State` (3) takes
exactly two payload bytes, `NotifyUser` (31) runs the
user prompt.  Afterwards the message is always published on
`message_received`.  Returns the new state, the messages written to the
transport by handlers, and the fired events in order. -/
def process_message (traceOn prompt : Bool) (s : SessionState) (msg : Msg) :
    Except PyErr (SessionState × List Msg × List Ev) :=
  match msg with
  | [] => .error .indexError
  | k :: rest =>
    if traceOn && !isValidMessageType k then .error .valueError
    else if k = 2 then
      if dtypeTruthy s.dtype then .ok (s, [], [.messageReceived msg])
      else match rest with
        | d :: _ =>
          if d ≤ 2 then .ok ({s with dtype := some d}, [], [.messageReceived msg])
          else .error .valueError
        | [] => .error .indexError
    else if k = 13 then
      if isValidUtf8 rest then .ok (s, [], [.messageReceived msg])
      else .error .unicodeDecodeError
    else if k = 28 then
      match rest with
      | [b0, b1, b2, b3] =>
        match update_battery_voltage s.battery_voltage (decodeFloat32 b0 b1 b2 b3) with
        | .error e => .error e
        | .ok (v, evs) =>
          .ok ({s with battery_voltage := some v}, [], evs ++ [.messageReceived msg])
      | _ => .error .structError
    else if k = 3 then
      match rest with
      | [st, fc] =>
        let r := update_state s.face_up st fc
        .ok ({s with face_up := r.1}, [], r.2 ++ [.messageReceived msg])
      | _ => .error .typeError
    else if k = 31 then
      match notify_user prompt msg with
      | .error e => .error e
      | .ok (sent, _) => .ok (s, sent, [.messageReceived msg])
    else .ok (s, [], [.messageReceived msg])

/-- One primitive step in a trace: attach/detach of an observer on the
`message_received` event bus, a write to the transport, or one
`waitForNotifications` call. -/
inductive Action where
  | attach (id : Nat)
  | detach (id : Nat)
  | send (m : Msg)
  | wait
deriving DecidableEq

def Action.isAttach : Action → Bool
  | .attach _ => true
  | _ => false

def Action.isSend : Action → Bool
  | .send _ => true
  | _ => false

/-- Modelled from the spec: `Event.detach` (in `utils.py`, not among the
sources) removes the callback from the list; Python's `list.remove` drops the
first occurrence. -/
def removeFirst : List Nat → Nat → List Nat
  | [], _ => []
  | x :: xs, i => if x = i then xs else x :: removeFirst xs i

/-- Effect of one trace action on the `message_received` callback list. -/
def runEvent (cbs : List Nat) : Action → List Nat
  | .attach i => cbs ++ [i]
  | .detach i => removeFirst cbs i
  | _ => cbs

/-- The messages a trace writes to the transport, in order. -/
def sends (tr : List Action) : List Msg :=
  tr.filterMap fun a => match a with
    | .send m => some m
    | _ => none

/-- The schedule of wait outcomes seen by one blocking call: for each
`waitForNotifications` call, the message delivered during it (if any) and the
elapsed-time reading taken after that iteration. -/
abbrev WaitEnv := List (Option Msg × ℚ)

/-- All messages a wait schedule delivers, in order. -/
def deliveredMsgs (env : WaitEnv) : List Msg :=
  env.filterMap fun p => p.1

/-- `PixelLink.wait_for_message(timeout, msg_type)` for one wait outcome `o`:
attaches a transient observer (identity `w`), blocks on
`waitForNotifications` — during which the delivered message, if any, is
dispatched through `_process_message` — and returns the recorded message (or
`None`), detaching the observer on every exit path (`finally`).  Neither
`timeout` (the real-time budget, folded into the wait outcome) nor
`msg_type` is read by the body.  Returns the result together with the
trace of the call; handler writes happen during the wait. -/
def wait_for_message (traceOn prompt : Bool) (timeout : ℚ) (msg_type : Nat)
    (s : SessionState) (o : Option Msg) (w : Nat) :
    Except PyErr (Option Msg × SessionState) × List Action :=
  match o with
  | none => (.ok (none, s), [.attach w, .wait, .detach w])
  | some m =>
    match process_message traceOn prompt s m with
    | .error e => (.error e, [.attach w, .wait, .detach w])
    | .ok (s', sent, _evs) =>
      (.ok (some m, s'), [.attach w, .wait] ++ sent.map Action.send ++ [.detach w])

/-- The failure modes of the protocol layer. -/
inductive Err where
  | ackTimeout (ackType : Nat) (timeout : ℚ)
  | identify
  | py (e : PyErr)
deriving DecidableEq

/-- The `while elapsed <= timeout` loop of `PixelLink._send_and_ack`, with the
transient ack observer already attached.  Each iteration calls
`wait_for_message(timeout - elapsed)` with a fresh observer identity; a wait
that delivers nothing breaks the loop (the ack timeout is raised); a
delivered message is dispatched (errors propagate), recorded by the ack
observer when it is the first message whose kind byte equals `ackType`, and
returned at once when recorded; otherwise `elapsed` is refreshed and the loop
continues.  Returns the result, the session state, the trace of the loop, and
the next fresh observer identity. -/
def sendAndAckLoop (traceOn prompt : Bool) (ackType : Nat) (timeout : ℚ) :
    WaitEnv → SessionState → Option Msg → ℚ → Nat →
    Except Err Msg × SessionState × List Action × Nat
  | [], s, _ackMsg, elapsed, c =>
    if elapsed ≤ timeout then
      (.error (.ackTimeout ackType timeout), s, [.attach c, .wait, .detach c], c + 1)
    else
      (.error (.ackTimeout ackType timeout), s, [], c)
  | (o, t) :: rest, s, ackMsg, elapsed, c =>
    if elapsed ≤ timeout then
      match wait_for_message traceOn prompt (timeout - elapsed) 0 s o c with
      | (.error e, wtr) => (.error (.py e), s, wtr, c + 1)
      | (.ok (none, s'), wtr) =>
        (.error (.ackTimeout ackType timeout), s', wtr, c + 1)
      | (.ok (some m, s'), wtr) =>
        let ackMsg' := if ackMsg = none ∧ m.headD 0 = ackType then some m else ackMsg
        match ackMsg' with
        | some a => (.ok a, s', wtr, c + 1)
        | none =>
          let r := sendAndAckLoop traceOn prompt ackType timeout rest s' none t (c + 1)
          (r.1, r.2.1, wtr ++ r.2.2.1, r.2.2.2)
    else (.error (.ackTimeout ackType timeout), s, [], c)

/-- `PixelLink._send_and_ack(msg_type, msg_data, ack_type, timeout)`: writes
the encoded request (`msg_type` byte followed by `msg_data`) to the
transport, then attaches the transient ack observer (identity `c`) and runs
the wait loop; the observer is detached on every exit path (`finally`).  The
`assert timeout >= 0` precondition is carried as a hypothesis by the
theorems.  Returns the result, the session state, the trace, and the next
fresh observer identity. -/
def send_and_ack (traceOn prompt : Bool) (msgType : Nat) (msgData : List Nat)
    (ackType : Nat) (timeout : ℚ) (env : WaitEnv) (s : SessionState) (c : Nat) :
    Except Err Msg × SessionState × List Action × Nat :=
  let r := sendAndAckLoop traceOn prompt ackType timeout env s none 0 (c + 1)
  (r.1, r.2.1,
    Action.send (msgType :: msgData) :: Action.attach c :: (r.2.2.1 ++ [Action.detach c]),
    r.2.2.2)

/-- The chunk loop of `PixelLink._upload_bulk_data`: while bytes remain, send
`BulkData` (7) carrying `[size, offsetLow, offsetHigh] + data[offset:offset+size]`
with `size = min(remaining, 16)` and wait for `BulkDataAck` (8); a failed ack
aborts immediately.  Each `_send_and_ack` call is driven by its own wait
schedule from `envs`. -/
def bulkLoop (traceOn prompt : Bool) (data : List Nat) (timeout : ℚ) :
    (remaining : Nat) → (offset : Nat) → List WaitEnv → SessionState → Nat →
    Except Err Unit × SessionState × List Action × Nat
  | 0, _, _, s, c => (.ok (), s, [], c)
  | remaining + 1, offset, envs, s, c =>
    let size := min (remaining + 1) 16
    let r := send_and_ack traceOn prompt 7
      (size :: (integer_to_bytes offset 2 ++ ((data.drop offset).take size))) 8 timeout
      (envs.headD []) s c
    match r.1 with
    | .error e => (.error e, r.2.1, r.2.2.1, r.2.2.2)
    | .ok _ =>
      let r2 := bulkLoop traceOn prompt data timeout (remaining + 1 - size) (offset + size)
        envs.tail r.2.1 r.2.2.2
      (r2.1, r2.2.1, r.2.2.1 ++ r2.2.2.1, r2.2.2.2)
termination_by remaining _ _ _ _ => remaining
decreasing_by simp_wf

/-- `PixelLink._upload_bulk_data(data, timeout)`: sends `BulkSetup` (5)
carrying the 2-byte total length and waits for `BulkSetupAck` (6); a failure
aborts the upload before any chunk; otherwise the chunk loop runs.  The
asserts (`len(data)` non-zero, `timeout >= 0`) are carried as hypotheses by
the theorems. -/
def upload_bulk_data (traceOn prompt : Bool) (data : List Nat) (timeout : ℚ)
    (envs : List WaitEnv) (s : SessionState) (c : Nat) :
    Except Err Unit × SessionState × List Action × Nat :=
  let r := send_and_ack traceOn prompt 5 (integer_to_bytes data.length 2) 6 timeout
    (envs.headD []) s c
  match r.1 with
  | .error e => (.error e, r.2.1, r.2.2.1, r.2.2.2)
  | .ok _ =>
    let r2 := bulkLoop traceOn prompt data timeout data.length 0 envs.tail r.2.1 r.2.2.2
    (r2.1, r2.2.1, r.2.2.1 ++ r2.2.2.1, r2.2.2.2)

/-- Outcome of `PixelLink.__init__` after the transport is connected: either
a fully constructed session together with every message written to the
transport, or a failure; `disconnected` records that the `except` clause ran
`self._device.disconnect()` before re-raising. -/
inductive InitResult where
  | ok (s : SessionState) (sent : List Msg)
  | fail (e : Err) (disconnected : Bool)
deriving DecidableEq

/-- The handshake part of `PixelLink.__init__` (after transport and event
setup): `_face_up = 0`, `_dtype = None`, send `WhoAreYou` (1), wait up to 1s
for `IAmADie` — the delivered message, if any, is dispatched, which is what
can set `_dtype` — and raise if `_dtype` is still falsy; then
`_battery_voltage = -1`, send `RequestBatteryLevel` (27), and wait up to 1s
for `BatteryLevel`.  The result of the second wait is not checked.  Any
exception disconnects the transport and propagates.  `w1`/`w2` are the
messages delivered during the two waits. -/
def initSession (traceOn prompt : Bool) (w1 w2 : Option Msg) : InitResult :=
  let s0 : SessionState := ⟨none, 0, none⟩
  let r1 := wait_for_message traceOn prompt 1 2 s0 w1 0
  match r1.1 with
  | .error e => .fail (.py e) true
  | .ok (_, s1) =>
    if dtypeTruthy s1.dtype then
      let s2 := {s1 with battery_voltage := some (-1)}
      let r2 := wait_for_message traceOn prompt 1 28 s2 w2 1
      match r2.1 with
      | .error e => .fail (.py e) true
      | .ok (_, s3) => .ok s3 ([[1]] ++ sends r1.2 ++ [[27]] ++ sends r2.2)
    else .fail .identify true

/-- Spec-side chunk table for a bulk transfer: for payload length `L` starting
at `off`, `ceil(L / 16)` chunks, the `k`-th having size
`min(remaining, 16) = min(L - 16k, 16)` at offset `off + 16k`. -/
def specChunksFrom (L off : Nat) : List (Nat × Nat) :=
  (List.range ((L + 15) / 16)).map fun k => (min (L - 16 * k) 16, off + 16 * k)

/-- A wait schedule under which every acknowledgement arrives at once: the
setup wait delivers `BulkSetupAck` (6) and each of `n` chunk waits delivers
`BulkDataAck` (8). -/
def happyEnvs (n : Nat) : List WaitEnv :=
  [(some [6], 0)] :: List.replicate n [(some [8], 0)]

end Pixels

namespace Pixels

/-! Basic facts about traces and the event-bus model. -/

theorem sends_append (x y : List Action) : sends (x ++ y) = sends x ++ sends y :=
  List.filterMap_append x y _

theorem sends_map_send (ms : List Msg) : sends (ms.map Action.send) = ms := by
  induction ms with
  | nil => rfl
  | cons m ms ih => simpa [sends] using ih

theorem removeFirst_append_self (c : Nat) : ∀ cbs : List Nat, c ∉ cbs →
    removeFirst (cbs ++ [c]) c = cbs
  | [], _ => by simp [removeFirst]
  | x :: xs, h => by
    have hx : x ≠ c := fun hxc => h (hxc ▸ List.mem_cons_self x xs)
    have ih := removeFirst_append_self c xs (fun hc => h (List.mem_cons_of_mem x hc))
    simp only [List.cons_append, removeFirst, if_neg hx, List.append_eq]
    rw [ih]

theorem foldl_runEvent_sends (ms : List Msg) : ∀ cbs : List Nat,
    List.foldl runEvent cbs (ms.map Action.send) = cbs := by
  induction ms with
  | nil => intro cbs; rfl
  | cons m ms ih => intro cbs; simpa [runEvent] using ih cbs

theorem foldl_runEvent_waitTrace (cbs : List Nat) (c : Nat) (h : c ∉ cbs) (ms : List Msg) :
    List.foldl runEvent cbs ([.attach c, .wait] ++ ms.map Action.send ++ [.detach c]) = cbs := by
  rw [List.foldl_append, List.foldl_append]
  simp only [List.foldl_cons, List.foldl_nil, runEvent]
  rw [foldl_runEvent_sends, removeFirst_append_self c cbs h]

/-! Facts about the dispatcher. -/

theorem process_message_six (traceOn prompt : Bool) (s : SessionState) :
    process_message traceOn prompt s [6] = .ok (s, [], [.messageReceived [6]]) := by
  simp [process_message, isValidMessageType]

theorem process_message_eight (traceOn prompt : Bool) (s : SessionState) :
    process_message traceOn prompt s [8] = .ok (s, [], [.messageReceived [8]]) := by
  simp [process_message, isValidMessageType]

theorem notify_user_sends (p : Bool) (msg : Msg) (ds : List Msg) (b : Bool)
    (h : notify_user p msg = .ok (ds, b)) : ds = [[32, if b then 1 else 0]] := by
  unfold notify_user at h
  split at h
  · split at h
    · simp only [Except.ok.injEq, Prod.mk.injEq] at h
      rcases h with ⟨h1, h2⟩
      rw [← h1, h2]
    · exact absurd h (by simp)
  · exact absurd h (by simp)

theorem process_message_sends32 (traceOn prompt : Bool) (s : SessionState) (msg : Msg)
    (s' : SessionState) (ds : List Msg) (evs : List Ev)
    (h : process_message traceOn prompt s msg = .ok (s', ds, evs)) :
    ∀ d ∈ ds, d.headD 0 = 32 := by
  cases msg with
  | nil => simp [process_message] at h
  | cons k rest =>
    simp only [process_message] at h
    split_ifs at h
    all_goals repeat split at h
    all_goals try (exfalso; exact Except.noConfusion h)
    all_goals simp only [Except.ok.injEq, Prod.mk.injEq] at h
    all_goals obtain ⟨h1, h2, h3⟩ := h
    all_goals intro d hd
    all_goals rw [← h2] at hd
    all_goals try exact absurd hd (List.not_mem_nil d)
    all_goals rename_i heq
    all_goals rw [notify_user_sends _ _ _ _ heq] at hd
    all_goals simp only [List.mem_singleton] at hd
    all_goals rw [hd]
    all_goals rfl

end Pixels

namespace Pixels

theorem deliveredMsgs_cons_some (m : Msg) (tn : ℚ) (rest : WaitEnv) :
    deliveredMsgs ((some m, tn) :: rest) = m :: deliveredMsgs rest := by
  simp [deliveredMsgs]

theorem deliveredMsgs_cons_none (tn : ℚ) (rest : WaitEnv) :
    deliveredMsgs ((none, tn) :: rest) = deliveredMsgs rest := by
  simp [deliveredMsgs]

theorem sendAndAckLoop_stop (traceOn prompt : Bool) (ack : Nat) (t : ℚ) (env : WaitEnv)
    (s : SessionState) (a : Option Msg) (elapsed : ℚ) (c : Nat) (helt : ¬ elapsed ≤ t) :
    sendAndAckLoop traceOn prompt ack t env s a elapsed c =
      (.error (.ackTimeout ack t), s, [], c) := by
  cases env with
  | nil => simp [sendAndAckLoop, helt]
  | cons p rest => obtain ⟨o, tn⟩ := p; simp [sendAndAckLoop, helt]

theorem sendAndAckLoop_nil (traceOn prompt : Bool) (ack : Nat) (t : ℚ)
    (s : SessionState) (a : Option Msg) (elapsed : ℚ) (c : Nat) (helt : elapsed ≤ t) :
    sendAndAckLoop traceOn prompt ack t [] s a elapsed c =
      (.error (.ackTimeout ack t), s, [.attach c, .wait, .detach c], c + 1) := by
  simp [sendAndAckLoop, helt]

theorem sendAndAckLoop_cons_none (traceOn prompt : Bool) (ack : Nat) (t : ℚ) (tn : ℚ)
    (rest : WaitEnv) (s : SessionState) (a : Option Msg) (elapsed : ℚ) (c : Nat)
    (helt : elapsed ≤ t) :
    sendAndAckLoop traceOn prompt ack t ((none, tn) :: rest) s a elapsed c =
      (.error (.ackTimeout ack t), s, [.attach c, .wait, .detach c], c + 1) := by
  simp [sendAndAckLoop, helt, wait_for_message]

theorem sendAndAckLoop_cons_err (traceOn prompt : Bool) (ack : Nat) (t : ℚ) (m : Msg)
    (tn : ℚ) (rest : WaitEnv) (s : SessionState) (a : Option Msg) (elapsed : ℚ) (c : Nat)
    (e : PyErr) (helt : elapsed ≤ t)
    (hx : process_message traceOn prompt s m = .error e) :
    sendAndAckLoop traceOn prompt ack t ((some m, tn) :: rest) s a elapsed c =
      (.error (.py e), s, [.attach c, .wait, .detach c], c + 1) := by
  simp [sendAndAckLoop, helt, wait_for_message, hx]

theorem sendAndAckLoop_cons_some (traceOn prompt : Bool) (ack : Nat) (t : ℚ) (m : Msg)
    (tn : ℚ) (rest : WaitEnv) (s s1 : SessionState) (ds1 : List Msg) (evs1 : List Ev)
    (elapsed : ℚ) (c : Nat) (helt : elapsed ≤ t)
    (hx : process_message traceOn prompt s m = .ok (s1, ds1, evs1)) :
    sendAndAckLoop traceOn prompt ack t ((some m, tn) :: rest) s none elapsed c =
      if m.headD 0 = ack then
        (.ok m, s1, [.attach c, .wait] ++ ds1.map Action.send ++ [.detach c], c + 1)
      else
        ((sendAndAckLoop traceOn prompt ack t rest s1 none tn (c + 1)).1,
         (sendAndAckLoop traceOn prompt ack t rest s1 none tn (c + 1)).2.1,
         ([.attach c, .wait] ++ ds1.map Action.send ++ [.detach c])
           ++ (sendAndAckLoop traceOn prompt ack t rest s1 none tn (c + 1)).2.2.1,
         (sendAndAckLoop traceOn prompt ack t rest s1 none tn (c + 1)).2.2.2) := by
  by_cases hmatch : m.headD 0 = ack
  · have hm2 : (List.head? m).getD 0 = ack := by simpa using hmatch
    rw [if_pos hmatch]
    simp only [sendAndAckLoop, if_pos helt, wait_for_message, hx]
    simp [hm2]
  · have hm2 : ¬ (List.head? m).getD 0 = ack := by simpa using hmatch
    rw [if_neg hmatch]
    simp only [sendAndAckLoop, if_pos helt, wait_for_message, hx]
    simp [hm2]

theorem sends_waitTrace (c : Nat) (ds1 : List Msg) :
    sends ([.attach c, .wait] ++ ds1.map Action.send ++ [.detach c]) = ds1 := by
  rw [sends_append, sends_append, sends_map_send]
  show ([] ++ ds1) ++ [] = ds1
  simp

theorem saa_happy (traceOn prompt : Bool) (mt : Nat) (md : List Nat) (ack : Nat) (t : ℚ)
    (ht : 0 ≤ t) (s : SessionState) (c : Nat)
    (hp : process_message traceOn prompt s [ack] = .ok (s, [], [.messageReceived [ack]])) :
    send_and_ack traceOn prompt mt md ack t [(some [ack], (0:ℚ))] s c =
      (.ok [ack], s,
        [.send (mt :: md), .attach c, .attach (c + 1), .wait, .detach (c + 1), .detach c],
        c + 1 + 1) := by
  unfold send_and_ack
  rw [sendAndAckLoop_cons_some traceOn prompt ack t [ack] 0 [] s s [] [.messageReceived [ack]]
    0 (c + 1) ht hp]
  simp

theorem sendAndAckLoop_spec (traceOn prompt : Bool) (ack : Nat) (t : ℚ) :
    ∀ (env : WaitEnv) (s : SessionState) (elapsed : ℚ) (c : Nat),
    (∀ m ∈ deliveredMsgs env, ∀ s' : SessionState,
        ∃ x, process_message traceOn prompt s' m = .ok x) →
    (∀ m, (sendAndAckLoop traceOn prompt ack t env s none elapsed c).1 = .ok m →
        m.headD 0 = ack ∧
        (deliveredMsgs env).find? (fun x => x.headD 0 == ack) = some m) ∧
    (∀ e, (sendAndAckLoop traceOn prompt ack t env s none elapsed c).1 = .error e →
        e = .ackTimeout ack t) := by
  intro env
  induction env with
  | nil =>
    intro s elapsed c _hclean
    by_cases helt : elapsed ≤ t
    · rw [sendAndAckLoop_nil traceOn prompt ack t s none elapsed c helt]
      exact ⟨(fun m hm => by cases hm), (fun e he => by cases he; rfl)⟩
    · rw [sendAndAckLoop_stop traceOn prompt ack t [] s none elapsed c helt]
      exact ⟨(fun m hm => by cases hm), (fun e he => by cases he; rfl)⟩
  | cons p rest ih =>
    obtain ⟨o, tn⟩ := p
    intro s elapsed c hclean
    by_cases helt : elapsed ≤ t
    · cases o with
      | none =>
        rw [sendAndAckLoop_cons_none traceOn prompt ack t tn rest s none elapsed c helt]
        refine ⟨(fun m hm => by cases hm), (fun e he => by cases he; rfl)⟩
      | some m =>
        have hmdel : m ∈ deliveredMsgs ((some m, tn) :: rest) := by
          simp [deliveredMsgs_cons_some]
        obtain ⟨x, hx⟩ := hclean m hmdel s
        obtain ⟨s1, ds1, evs1⟩ := x
        rw [sendAndAckLoop_cons_some traceOn prompt ack t m tn rest s s1 ds1 evs1
          elapsed c helt hx]
        by_cases hmatch : m.headD 0 = ack
        · rw [if_pos hmatch]
          refine ⟨fun m' hm' => ?_, fun e he => by cases he⟩
          cases hm'
          rw [deliveredMsgs_cons_some, List.find?_cons_of_pos _ (by simpa using hmatch)]
          exact ⟨hmatch, rfl⟩
        · rw [if_neg hmatch]
          have hclean' : ∀ m' ∈ deliveredMsgs rest, ∀ s' : SessionState,
              ∃ x, process_message traceOn prompt s' m' = .ok x := fun m' hm' s' =>
            hclean m' (by rw [deliveredMsgs_cons_some]; exact List.mem_cons_of_mem m hm') s'
          have IH := ih s1 tn (c + 1) hclean'
          refine ⟨fun m' hm' => ?_, fun e he => IH.2 e he⟩
          obtain ⟨h1, h2⟩ := IH.1 m' hm'
          rw [deliveredMsgs_cons_some, List.find?_cons_of_neg _ (by simpa using hmatch)]
          exact ⟨h1, h2⟩
    · rw [sendAndAckLoop_stop traceOn prompt ack t _ s none elapsed c helt]
      exact ⟨(fun m hm => by cases hm), (fun e he => by cases he; rfl)⟩

theorem sendAndAckLoop_sends32 (traceOn prompt : Bool) (ack : Nat) (t : ℚ) :
    ∀ (env : WaitEnv) (s : SessionState) (elapsed : ℚ) (c : Nat),
    ∀ d ∈ sends (sendAndAckLoop traceOn prompt ack t env s none elapsed c).2.2.1,
      d.headD 0 = 32 := by
  intro env
  induction env with
  | nil =>
    intro s elapsed c d hd
    by_cases helt : elapsed ≤ t
    · rw [sendAndAckLoop_nil traceOn prompt ack t s none elapsed c helt] at hd
      simp [sends] at hd
    · rw [sendAndAckLoop_stop traceOn prompt ack t [] s none elapsed c helt] at hd
      simp [sends] at hd
  | cons p rest ih =>
    obtain ⟨o, tn⟩ := p
    intro s elapsed c d hd
    by_cases helt : elapsed ≤ t
    · cases o with
      | none =>
        rw [sendAndAckLoop_cons_none traceOn prompt ack t tn rest s none elapsed c helt] at hd
        simp [sends] at hd
      | some m =>
        cases hx : process_message traceOn prompt s m with
        | error e =>
          rw [sendAndAckLoop_cons_err traceOn prompt ack t m tn rest s none elapsed c e
            helt hx] at hd
          simp [sends] at hd
        | ok x =>
          obtain ⟨s1, ds1, evs1⟩ := x
          rw [sendAndAckLoop_cons_some traceOn prompt ack t m tn rest s s1 ds1 evs1
            elapsed c helt hx] at hd
          by_cases hmatch : m.headD 0 = ack
          · rw [if_pos hmatch] at hd
            rw [sends_waitTrace] at hd
            exact process_message_sends32 traceOn prompt s m s1 ds1 evs1 hx d hd
          · rw [if_neg hmatch] at hd
            rw [sends_append, sends_waitTrace] at hd
            rcases List.mem_append.mp hd with hd | hd
            · exact process_message_sends32 traceOn prompt s m s1 ds1 evs1 hx d hd
            · exact ih s1 tn (c + 1) d hd
    · rw [sendAndAckLoop_stop traceOn prompt ack t _ s none elapsed c helt] at hd
      simp [sends] at hd

theorem sendAndAckLoop_fold (traceOn prompt : Bool) (ack : Nat) (t : ℚ) :
    ∀ (env : WaitEnv) (s : SessionState) (elapsed : ℚ) (c : Nat) (cbs : List Nat),
    (∀ i ∈ cbs, i < c) →
    List.foldl runEvent cbs (sendAndAckLoop traceOn prompt ack t env s none elapsed c).2.2.1
      = cbs := by
  intro env
  induction env with
  | nil =>
    intro s elapsed c cbs hfresh
    have hc : c ∉ cbs := fun hcc => lt_irrefl c (hfresh c hcc)
    by_cases helt : elapsed ≤ t
    · rw [sendAndAckLoop_nil traceOn prompt ack t s none elapsed c helt]
      simpa using foldl_runEvent_waitTrace cbs c hc []
    · rw [sendAndAckLoop_stop traceOn prompt ack t [] s none elapsed c helt]
      rfl
  | cons p rest ih =>
    obtain ⟨o, tn⟩ := p
    intro s elapsed c cbs hfresh
    have hc : c ∉ cbs := fun hcc => lt_irrefl c (hfresh c hcc)
    by_cases helt : elapsed ≤ t
    · cases o with
      | none =>
        rw [sendAndAckLoop_cons_none traceOn prompt ack t tn rest s none elapsed c helt]
        simpa using foldl_runEvent_waitTrace cbs c hc []
      | some m =>
        cases hx : process_message traceOn prompt s m with
        | error e =>
          rw [sendAndAckLoop_cons_err traceOn prompt ack t m tn rest s none elapsed c e
            helt hx]
          simpa using foldl_runEvent_waitTrace cbs c hc []
        | ok x =>
          obtain ⟨s1, ds1, evs1⟩ := x
          rw [sendAndAckLoop_cons_some traceOn prompt ack t m tn rest s s1 ds1 evs1
            elapsed c helt hx]
          by_cases hmatch : m.headD 0 = ack
          · rw [if_pos hmatch]
            exact foldl_runEvent_waitTrace cbs c hc ds1
          · rw [if_neg hmatch]
            rw [List.foldl_append, foldl_runEvent_waitTrace cbs c hc ds1]
            exact ih s1 tn (c + 1) cbs (fun i hi => Nat.lt_succ_of_lt (hfresh i hi))
    · rw [sendAndAckLoop_stop traceOn prompt ack t _ s none elapsed c helt]
      rfl

end Pixels

namespace Pixels

theorem specChunksFrom_zero (off : Nat) : specChunksFrom 0 off = [] := rfl

theorem specChunksFrom_succ (L off : Nat) (h : 0 < L) :
    specChunksFrom L off =
      (min L 16, off) :: specChunksFrom (L - min L 16) (off + min L 16) := by
  rcases Nat.le_total L 16 with h16 | h16
  · have hm : min L 16 = L := Nat.min_eq_left h16
    have hn : (L + 15) / 16 = 1 := by omega
    rw [hm]
    unfold specChunksFrom
    rw [hn, Nat.sub_self]
    rw [show List.range 1 = [0] from rfl]
    simp [hm]
  · have hm : min L 16 = 16 := Nat.min_eq_right h16
    have hn : (L + 15) / 16 = (L - 16 + 15) / 16 + 1 := by omega
    rw [hm]
    unfold specChunksFrom
    rw [hn, List.range_succ_eq_map]
    simp only [List.map_cons, List.map_map]
    congr 1
    · simp [hm]
    · apply List.map_congr_left
      intro k _
      simp only [Function.comp_apply, Nat.succ_eq_add_one, Prod.mk.injEq]
      constructor
      · have h1 : L - 16 * (k + 1) = L - 16 - 16 * k := by omega
        rw [h1]
      · omega

theorem specChunksFrom_length (L off : Nat) :
    (specChunksFrom L off).length = (L + 15) / 16 := by
  simp [specChunksFrom]

theorem specChunksFrom_getD (L off k : Nat) (h : k < (L + 15) / 16) :
    (specChunksFrom L off).getD k (0, 0) = (min (L - 16 * k) 16, off + 16 * k) := by
  rw [specChunksFrom, List.getD_eq_getElem?_getD, List.getElem?_map, List.getElem?_range h]
  rfl

theorem bulkLoop_happy (traceOn prompt : Bool) (data : List Nat) (t : ℚ) (ht : 0 ≤ t) :
    ∀ remaining offset (s : SessionState) (c n : Nat),
      (remaining + 15) / 16 ≤ n →
      (bulkLoop traceOn prompt data t remaining offset
          (List.replicate n [(some [8], (0:ℚ))]) s c).1 = .ok () ∧
      (bulkLoop traceOn prompt data t remaining offset
          (List.replicate n [(some [8], (0:ℚ))]) s c).2.1 = s ∧
      sends (bulkLoop traceOn prompt data t remaining offset
          (List.replicate n [(some [8], (0:ℚ))]) s c).2.2.1 =
        (specChunksFrom remaining offset).map
          (fun pr => 7 :: pr.1 :: (integer_to_bytes pr.2 2 ++ ((data.drop pr.2).take pr.1))) := by
  intro remaining
  induction remaining using Nat.strong_induction_on with
  | _ remaining ih =>
    cases remaining with
    | zero =>
      intro offset s c n _hn
      simp only [bulkLoop]
      refine ⟨trivial, trivial, ?_⟩
      rw [specChunksFrom_zero]
      rfl
    | succ r =>
      intro offset s c n hn
      obtain ⟨n', rfl⟩ : ∃ n', n = n' + 1 := ⟨n - 1, by omega⟩
      have hsaa := saa_happy traceOn prompt 7
        (min (r + 1) 16 :: (integer_to_bytes offset 2 ++ ((data.drop offset).take (min (r + 1) 16))))
        8 t ht s c (process_message_eight traceOn prompt s)
      have IH := ih (r + 1 - min (r + 1) 16) (by omega) (offset + min (r + 1) 16) s
        (c + 1 + 1) n' (by omega)
      simp only [bulkLoop, List.replicate_succ, List.headD_cons, List.tail_cons, hsaa]
      refine ⟨IH.1, IH.2.1, ?_⟩
      rw [sends_append, IH.2.2]
      rw [specChunksFrom_succ (r + 1) offset (Nat.succ_pos r)]
      rw [List.map_cons]
      rfl

end Pixels

namespace Pixels

theorem sends_saaTrace (mt : Nat) (md : List Nat) (c : Nat) (X : List Action) :
    sends (Action.send (mt :: md) :: Action.attach c :: (X ++ [Action.detach c])) =
      (mt :: md) :: sends X := by
  simp [sends, List.filterMap_cons, List.filterMap_append]

/-- Claim C1 counterexample: in `_send_and_ack`, the request is written to the
transport *before* the transient ack observer is attached — at a concrete
call the first attach action in the trace does not precede the send action,
refuting "the observer is registered before the encoded request is written". -/
theorem c1_counterexample :
    ¬ ((send_and_ack false true 5 [40, 0] 6 1 [] ⟨none, 0, none⟩ 0).2.2.1.findIdx
          Action.isAttach <
        (send_and_ack false true 5 [40, 0] 6 1 [] ⟨none, 0, none⟩ 0).2.2.1.findIdx
          Action.isSend) := by decide

/-- Claim C1 (corrected): the transient ack observer is attached immediately
*after* the request is written and before anything else — every trace of
`_send_and_ack` starts with the send followed directly by the attach, so the
observer is in place before any wait on notifications (the only points where
inbound messages are dispatched in this cooperative model). -/
theorem c1_amended_order (traceOn prompt : Bool) (mt : Nat) (md : List Nat) (ack : Nat)
    (t : ℚ) (env : WaitEnv) (s : SessionState) (c : Nat) :
    ∃ tr, (send_and_ack traceOn prompt mt md ack t env s c).2.2.1 =
      Action.send (mt :: md) :: Action.attach c :: tr := ⟨_, rfl⟩

/-- Claim C2 counterexample: with `IAmADie` answered during the first wait and
*no* `BatteryLevel` reply ever arriving within its wait, `__init__` still
returns a session (battery voltage left at the -1 sentinel) and never
disconnects the transport — refuting "construction fails and the transport is
torn down" for the battery step. -/
theorem c2_counterexample :
    initSession false true (some [2, 1]) none =
      .ok ⟨some 1, 0, some (-1)⟩ [[1], [27]] := by decide

/-- Claim C2 (corrected): construction disconnects the transport and raises
exactly when the identification step fails (no message, a dispatch error, or
an unidentified/falsy device type); once the device type is identified,
construction succeeds even if the `BatteryLevel` reply never arrives — the
session is returned with `battery_voltage = -1` and exactly `WhoAreYou`,
the handler replies, and `RequestBatteryLevel` written to the transport. -/
theorem c2_amended :
    (∀ (traceOn prompt : Bool) (w2 : Option Msg),
        initSession traceOn prompt none w2 = .fail .identify true) ∧
    (∀ (traceOn prompt : Bool) (m1 : Msg) (s1 : SessionState) (ds : List Msg) (evs : List Ev),
        process_message traceOn prompt ⟨none, 0, none⟩ m1 = .ok (s1, ds, evs) →
        dtypeTruthy s1.dtype = true →
        initSession traceOn prompt (some m1) none =
          .ok {s1 with battery_voltage := some (-1)} ([[1]] ++ ds ++ [[27]])) := by
  constructor
  · intro traceOn prompt w2
    cases w2 with
    | none => simp [initSession, wait_for_message, dtypeTruthy]
    | some m2 => simp [initSession, wait_for_message, dtypeTruthy]
  · intro traceOn prompt m1 s1 ds evs hpm hdt
    simp only [initSession, wait_for_message, hpm, hdt, if_true]
    rw [sends_waitTrace]
    simp [sends]

/-- Witness for C2 (corrected): instantiates the amended claim at an
`IAmADie(d6)` reply and a silent battery wait. -/
theorem c2_witness :
    process_message false true ⟨none, 0, none⟩ [2, 1] =
      .ok (⟨some 1, 0, none⟩, [], [.messageReceived [2, 1]]) ∧
    dtypeTruthy (some 1) = true ∧
    initSession false true (some [2, 1]) none =
      .ok ⟨some 1, 0, some (-1)⟩ [[1], [27]] := by
  refine ⟨by decide, by decide, ?_⟩
  have h := c2_amended.2 false true [2, 1] ⟨some 1, 0, none⟩ [] [.messageReceived [2, 1]]
    (by decide) (by decide)
  simpa using h

/-- Claim C3: for every non-empty payload, when every acknowledgement arrives,
`_upload_bulk_data` writes exactly one `BulkSetup` message carrying the
length as a 2-byte little-endian field followed by exactly `ceil(L/16)`
`BulkData` chunks `[chunkSize, offsetLow, offsetHigh, ...bytes]` with
`chunkSize = min(remaining, 16)`; offsets start at 0, grow by exactly the
previous chunk size, and the final offset plus final size equals `L`. -/
theorem c3_bulk_chunking (traceOn prompt : Bool) (data : List Nat) (t : ℚ)
    (s : SessionState) (c : Nat) (hdata : data ≠ []) (ht : 0 ≤ t) :
    (upload_bulk_data traceOn prompt data t (happyEnvs ((data.length + 15) / 16)) s c).1
      = .ok () ∧
    sends (upload_bulk_data traceOn prompt data t
        (happyEnvs ((data.length + 15) / 16)) s c).2.2.1
      = (5 :: integer_to_bytes data.length 2) ::
          (specChunksFrom data.length 0).map
            (fun pr => 7 :: pr.1 :: (integer_to_bytes pr.2 2 ++ ((data.drop pr.2).take pr.1))) ∧
    (specChunksFrom data.length 0).length = (data.length + 15) / 16 ∧
    (∀ k, k < (specChunksFrom data.length 0).length →
        ((specChunksFrom data.length 0).getD k (0, 0)).1 = min (data.length - 16 * k) 16 ∧
        ((specChunksFrom data.length 0).getD k (0, 0)).2 = 16 * k) ∧
    ((specChunksFrom data.length 0).getD 0 (0, 0)).2 = 0 ∧
    (∀ k, k + 1 < (specChunksFrom data.length 0).length →
        ((specChunksFrom data.length 0).getD (k + 1) (0, 0)).2 =
          ((specChunksFrom data.length 0).getD k (0, 0)).2 +
            ((specChunksFrom data.length 0).getD k (0, 0)).1) ∧
    ((specChunksFrom data.length 0).getD ((data.length + 15) / 16 - 1) (0, 0)).2 +
        ((specChunksFrom data.length 0).getD ((data.length + 15) / 16 - 1) (0, 0)).1
      = data.length := by
  have hL : 0 < data.length := List.length_pos.mpr hdata
  have hsaa := saa_happy traceOn prompt 5 (integer_to_bytes data.length 2) 6 t ht s c
    (process_message_six traceOn prompt s)
  have HB := bulkLoop_happy traceOn prompt data t ht data.length 0 s (c + 1 + 1)
    ((data.length + 15) / 16) (le_refl _)
  have hlen := specChunksFrom_length data.length 0
  refine ⟨?_, ?_, hlen, ?_, ?_, ?_, ?_⟩
  · simp only [upload_bulk_data, happyEnvs, List.headD_cons, List.tail_cons, hsaa]
    exact HB.1
  · simp only [upload_bulk_data, happyEnvs, List.headD_cons, List.tail_cons, hsaa]
    rw [sends_append, HB.2.2]
    rfl
  · intro k hk
    rw [hlen] at hk
    rw [specChunksFrom_getD data.length 0 k hk]
    exact ⟨rfl, by omega⟩
  · have h0 : 0 < (data.length + 15) / 16 := by omega
    rw [specChunksFrom_getD data.length 0 0 h0]
  · intro k hk
    rw [hlen] at hk
    rw [specChunksFrom_getD data.length 0 (k + 1) hk,
      specChunksFrom_getD data.length 0 k (by omega)]
    have : min (data.length - 16 * k) 16 = 16 := by omega
    rw [this]
    omega
  · have hlast : (data.length + 15) / 16 - 1 < (data.length + 15) / 16 := by omega
    rw [specChunksFrom_getD data.length 0 _ hlast]
    have : min (data.length - 16 * ((data.length + 15) / 16 - 1)) 16
        = data.length - 16 * ((data.length + 15) / 16 - 1) := by omega
    rw [this]
    omega

/-- Witness for C3: a 40-byte payload yields the setup message plus chunks of
sizes `[16, 16, 8]` at offsets `[0, 16, 32]`. -/
theorem c3_witness :
    (upload_bulk_data false true (List.range 40) 1 (happyEnvs 3) ⟨none, 0, none⟩ 0).1
      = .ok () ∧
    sends (upload_bulk_data false true (List.range 40) 1 (happyEnvs 3) ⟨none, 0, none⟩ 0).2.2.1
      = (5 :: integer_to_bytes 40 2) ::
          (specChunksFrom 40 0).map
            (fun pr => 7 :: pr.1 ::
              (integer_to_bytes pr.2 2 ++ (((List.range 40).drop pr.2).take pr.1))) ∧
    specChunksFrom 40 0 = [(16, 0), (16, 16), (8, 32)] := by
  have h := c3_bulk_chunking false true (List.range 40) 1 ⟨none, 0, none⟩ 0
    (by decide) (by decide)
  exact ⟨by simpa using h.1, by simpa using h.2.1, by decide⟩

/-- Claim C4: under well-formed traffic (every delivered message dispatches
without a Python error), `_send_and_ack` has exactly two outcomes: it returns
the *first* delivered message whose kind byte equals `ack_type` (later
matches are ignored because the loop returns at the first one), or it raises
the acknowledgement-timeout error carrying exactly `ack_type` and `timeout`. -/
theorem c4_send_and_ack (traceOn prompt : Bool) (mt : Nat) (md : List Nat) (ack : Nat)
    (t : ℚ) (env : WaitEnv) (s : SessionState) (c : Nat) (ht : 0 ≤ t)
    (hclean : ∀ m ∈ deliveredMsgs env, ∀ s' : SessionState,
        ∃ x, process_message traceOn prompt s' m = .ok x) :
    (∀ m, (send_and_ack traceOn prompt mt md ack t env s c).1 = .ok m →
        m.headD 0 = ack ∧
        (deliveredMsgs env).find? (fun x => x.headD 0 == ack) = some m) ∧
    (∀ e, (send_and_ack traceOn prompt mt md ack t env s c).1 = .error e →
        e = .ackTimeout ack t) :=
  sendAndAckLoop_spec traceOn prompt ack t env s 0 (c + 1) hclean

/-- Witness for C4: with a `State` notification followed by the expected ack
of kind 6, the call returns `[6]`, the first (and only) match. -/
theorem c4_witness :
    ((0 : ℚ) ≤ 1) ∧
    List.headD [6] 0 = 6 ∧
    (deliveredMsgs [(some [3, 1, 2], 0), (some [6], 0)]).find?
      (fun x => x.headD 0 == 6) = some [6] := by
  have hclean : ∀ m ∈ deliveredMsgs [(some [3, 1, 2], (0 : ℚ)), (some [6], 0)],
      ∀ s' : SessionState, ∃ x, process_message false true s' m = .ok x := by
    intro m hm s'
    have hm2 : m = [3, 1, 2] ∨ m = [6] := by
      simpa [deliveredMsgs] using hm
    rcases hm2 with rfl | rfl
    · exact ⟨_, rfl⟩
    · exact ⟨_, rfl⟩
  exact ⟨by decide,
    (c4_send_and_ack false true 27 [] 6 1 [(some [3, 1, 2], 0), (some [6], 0)]
      ⟨none, 0, none⟩ 0 (by decide) hclean).1 [6] (by decide)⟩

/-- Claim C5: if no message of kind `BulkSetupAck` (6) is delivered during the
setup wait, `_upload_bulk_data` fails with the acknowledgement timeout for
kind 6 and the given timeout, and no `BulkData` (7) message is ever written
to the transport — only the setup request (and possibly `NotifyUserAck`
handler replies) appear among the sends. -/
theorem c5_setup_timeout (traceOn prompt : Bool) (data : List Nat) (t : ℚ)
    (env0 : WaitEnv) (envs : List WaitEnv) (s : SessionState) (c : Nat)
    (hdata : data ≠ []) (ht : 0 ≤ t)
    (henv : ∀ p ∈ env0, ∀ m : Msg, p.1 = some m → m.headD 0 ≠ 6 ∧
        ∀ s' : SessionState, ∃ x, process_message traceOn prompt s' m = .ok x) :
    (upload_bulk_data traceOn prompt data t (env0 :: envs) s c).1 =
      .error (.ackTimeout 6 t) ∧
    ∀ d ∈ sends (upload_bulk_data traceOn prompt data t (env0 :: envs) s c).2.2.1,
      d.headD 0 ≠ 7 := by
  have hclean : ∀ m ∈ deliveredMsgs env0, ∀ s' : SessionState,
      ∃ x, process_message traceOn prompt s' m = .ok x := by
    intro m hm s'
    obtain ⟨p, hp, hpm⟩ := List.mem_filterMap.mp hm
    exact (henv p hp m hpm).2 s'
  have hnone : (deliveredMsgs env0).find? (fun x => x.headD 0 == 6) = none := by
    apply List.find?_eq_none.mpr
    intro m hm
    obtain ⟨p, hp, hpm⟩ := List.mem_filterMap.mp hm
    simpa using (henv p hp m hpm).1
  have hspec := sendAndAckLoop_spec traceOn prompt 6 t env0 s 0 (c + 1) hclean
  have hsa1 : (send_and_ack traceOn prompt 5 (integer_to_bytes data.length 2) 6 t
      env0 s c).1 = .error (.ackTimeout 6 t) := by
    show (sendAndAckLoop traceOn prompt 6 t env0 s none 0 (c + 1)).1 = _
    cases hres : (sendAndAckLoop traceOn prompt 6 t env0 s none 0 (c + 1)).1 with
    | ok m =>
      have hfind := (hspec.1 m hres).2
      rw [hnone] at hfind
      cases hfind
    | error e =>
      rw [hspec.2 e hres]
  constructor
  · simp only [upload_bulk_data, List.headD_cons, hsa1]
  · intro d hd
    simp only [upload_bulk_data, List.headD_cons, hsa1] at hd
    rw [show (send_and_ack traceOn prompt 5 (integer_to_bytes data.length 2) 6 t
        env0 s c).2.2.1 =
        Action.send (5 :: integer_to_bytes data.length 2) :: Action.attach c ::
          ((sendAndAckLoop traceOn prompt 6 t env0 s none 0 (c + 1)).2.2.1
            ++ [Action.detach c]) from rfl, sends_saaTrace] at hd
    rcases List.mem_cons.mp hd with rfl | hd
    · simp
    · have h32 := sendAndAckLoop_sends32 traceOn prompt 6 t env0 s 0 (c + 1) d hd
      rw [h32]
      decide

/-- Witness for C5: a 3-byte upload whose setup wait delivers nothing fails
with `AckTimeout(BulkSetupAck, 1)`. -/
theorem c5_witness :
    ((List.replicate 3 (0 : Nat) ≠ []) ∧ (0 : ℚ) ≤ 1) ∧
    (upload_bulk_data false true (List.replicate 3 0) 1 [[]] ⟨none, 0, none⟩ 0).1 =
      .error (.ackTimeout 6 1) := by
  have h := c5_setup_timeout false true (List.replicate 3 0) 1 [] [] ⟨none, 0, none⟩ 0
    (by decide) (by decide) (by intro p hp; cases hp)
  exact ⟨⟨by decide, by decide⟩, h.1⟩

/-- Claim C6 counterexample: with tracing off (the default `_trace = False`),
a message whose kind byte 200 is not a valid `MessageType` is dispatched
without any error: no handler runs, and the message is still published on
`message_received` — refuting "a DecodeError is reported and dispatch of that
message aborts". -/
theorem c6_counterexample :
    process_message false true ⟨none, 0, none⟩ [200] =
      .ok (⟨none, 0, none⟩, [], [.messageReceived [200]]) ∧
    isValidMessageType 200 = false := by decide

/-- Claim C6 (corrected): an inbound message with an invalid kind byte is
silently ignored by every kind-specific handler and still published on
`message_received` when tracing is off (the default), leaving the session
state unchanged and usable; only when tracing is on does decoding the kind
byte raise (`MessageType(msg[0])` in the trace print), aborting dispatch. -/
theorem c6_amended (prompt : Bool) (s : SessionState) (k : Nat) (rest : List Nat)
    (hk : isValidMessageType k = false) :
    process_message false prompt s (k :: rest) =
      .ok (s, [], [.messageReceived (k :: rest)]) ∧
    process_message true prompt s (k :: rest) = .error .valueError := by
  have hk38 : ¬ k ≤ 38 := by simpa [isValidMessageType] using hk
  have h2 : k ≠ 2 := by omega
  have h13 : k ≠ 13 := by omega
  have h28 : k ≠ 28 := by omega
  have h3 : k ≠ 3 := by omega
  have h31 : k ≠ 31 := by omega
  constructor
  · simp [process_message, hk, h2, h13, h28, h3, h31]
  · simp [process_message, hk]

/-- Witness for C6 (corrected): kind byte 200 at a concrete session state. -/
theorem c6_witness :
    isValidMessageType 200 = false ∧
    process_message false true ⟨some 1, 2, some 3⟩ [200, 7] =
      .ok (⟨some 1, 2, some 3⟩, [], [.messageReceived [200, 7]]) ∧
    process_message true true ⟨some 1, 2, some 3⟩ [200, 7] = .error .valueError := by
  have h := c6_amended true ⟨some 1, 2, some 3⟩ 200 [7] (by decide)
  exact ⟨by decide, h.1, h.2⟩

/-- Claim C7: dispatching a `State` message sets `face_up` to `face + 1` when
`state = 1` and to `0` otherwise, firing `face_up_changed` with the new value
exactly when it differs from the current one; dispatching the identical
message again from the resulting state fires no event. -/
theorem c7_face_up (prompt : Bool) (s : SessionState) (st fc : Nat) :
    process_message false prompt s [3, st, fc] =
      .ok ({s with face_up := if st = 1 then fc + 1 else 0}, [],
        (if s.face_up ≠ (if st = 1 then fc + 1 else 0)
          then [Ev.faceUpChanged (if st = 1 then fc + 1 else 0)] else [])
          ++ [Ev.messageReceived [3, st, fc]]) ∧
    process_message false prompt {s with face_up := if st = 1 then fc + 1 else 0}
        [3, st, fc] =
      .ok ({s with face_up := if st = 1 then fc + 1 else 0}, [],
        [Ev.messageReceived [3, st, fc]]) := by
  constructor
  · by_cases hne : s.face_up ≠ (if st = 1 then fc + 1 else 0)
    · simp [process_message, update_state, hne]
    · simp only [ne_eq, not_not] at hne
      simp [process_message, update_state, hne]
  · simp [process_message, update_state]

/-- Claim C8 counterexample: a `NotifyUser` frame with allowOk = 0 whose text
bytes are not valid UTF-8 (the single byte 0xFF = 255) makes the handler
raise `UnicodeDecodeError` at `bytes(msg[4:]).decode("utf-8")` before the
`NotifyUserAck` send is reached — so no ack carrying 1 is sent for that
dispatched message, refuting the unconditional reply. -/
theorem c8_counterexample :
    process_message false true ⟨none, 0, none⟩ [31, 5, 0, 1, 255] =
      .error .unicodeDecodeError ∧
    notify_user true [31, 5, 0, 1, 255] = .error .unicodeDecodeError := by decide

/-- Claim C8 (corrected): dispatching a `NotifyUser` message whose allowOk
flag is 0 (so cancellation is not permitted) and whose text bytes decode as
UTF-8 replies `NotifyUserAck` carrying 1 (continue) regardless of the prompt
collaborator decision, which the statement quantifies over; when the text is
not valid UTF-8 the handler raises before any reply is sent. -/
theorem c8_notify_forced_continue (prompt : Bool) (s : SessionState) (tb : Nat)
    (cancelFlag : Nat) (rest : List Nat) (hutf : isValidUtf8 rest = true) :
    process_message false prompt s (31 :: tb :: 0 :: cancelFlag :: rest) =
      .ok (s, [[32, 1]], [.messageReceived (31 :: tb :: 0 :: cancelFlag :: rest)]) := by
  simp [process_message, notify_user, hutf]

/-- Witness for C8 (corrected): a concrete frame with allowOk = 0 and the
valid UTF-8 text "A" gets the forced continue reply for either prompt
decision. -/
theorem c8_witness :
    isValidUtf8 [65] = true ∧
    process_message false true ⟨none, 0, none⟩ [31, 5, 0, 1, 65] =
      .ok (⟨none, 0, none⟩, [[32, 1]], [.messageReceived [31, 5, 0, 1, 65]]) ∧
    process_message false false ⟨none, 0, none⟩ [31, 5, 0, 1, 65] =
      .ok (⟨none, 0, none⟩, [[32, 1]], [.messageReceived [31, 5, 0, 1, 65]]) := by
  exact ⟨by decide,
    c8_notify_forced_continue true ⟨none, 0, none⟩ 5 1 [65] (by decide),
    c8_notify_forced_continue false ⟨none, 0, none⟩ 5 1 [65] (by decide)⟩

/-- Claim C9: on every exit path of `_send_and_ack` and of `wait_for_message`
— successful ack, timeout, or a dispatch exception — each transient observer
attached to `message_received` during the call is detached again, so running
the call trace over any prior callback list (whose entries predate the fresh
observer identities) leaves it exactly unchanged. -/
theorem c9_observer_cleanup (traceOn prompt : Bool) (mt : Nat) (md : List Nat) (ack : Nat)
    (t : ℚ) (env : WaitEnv) (s : SessionState) (c : Nat) (cbs : List Nat)
    (hfresh : ∀ i ∈ cbs, i < c) (k : Nat) (o : Option Msg) :
    List.foldl runEvent cbs (send_and_ack traceOn prompt mt md ack t env s c).2.2.1 = cbs ∧
    List.foldl runEvent cbs (wait_for_message traceOn prompt t k s o c).2 = cbs := by
  have hc : c ∉ cbs := fun hcc => lt_irrefl c (hfresh c hcc)
  constructor
  · show List.foldl runEvent cbs
      (Action.send (mt :: md) :: Action.attach c ::
        ((sendAndAckLoop traceOn prompt ack t env s none 0 (c + 1)).2.2.1
          ++ [Action.detach c])) = cbs
    rw [List.foldl_cons, List.foldl_cons]
    show List.foldl runEvent (cbs ++ [c])
      ((sendAndAckLoop traceOn prompt ack t env s none 0 (c + 1)).2.2.1
        ++ [Action.detach c]) = cbs
    rw [List.foldl_append]
    rw [sendAndAckLoop_fold traceOn prompt ack t env s 0 (c + 1) (cbs ++ [c])
      (by
        intro i hi
        rcases List.mem_append.mp hi with hi | hi
        · exact Nat.lt_succ_of_lt (hfresh i hi)
        · simp only [List.mem_singleton] at hi
          omega)]
    show removeFirst (cbs ++ [c]) c = cbs
    exact removeFirst_append_self c cbs hc
  · cases o with
    | none => simpa using foldl_runEvent_waitTrace cbs c hc []
    | some m =>
      cases hx : process_message traceOn prompt s m with
      | error e =>
        simp only [wait_for_message, hx]
        simpa using foldl_runEvent_waitTrace cbs c hc []
      | ok x =>
        obtain ⟨s1, ds1, evs1⟩ := x
        simp only [wait_for_message, hx]
        exact foldl_runEvent_waitTrace cbs c hc ds1

/-- Witness for C9: a concrete two-wait call (and a one-wait
`wait_for_message`) leaves the callback list `[0]` unchanged. -/
theorem c9_witness :
    List.foldl runEvent [0] (send_and_ack false true 5 [40, 0] 6 1
        [(some [3, 1, 2], 0), (some [6], 0)] ⟨none, 0, none⟩ 1).2.2.1 = [0] ∧
    List.foldl runEvent [0] (wait_for_message false true 1 28
        ⟨none, 0, none⟩ (some [2, 1]) 1).2 = [0] := by
  have h := c9_observer_cleanup false true 5 [40, 0] 6 1
    [(some [3, 1, 2], 0), (some [6], 0)] ⟨none, 0, none⟩ 1 [0] (by decide) 28 (some [2, 1])
  exact ⟨h.1, h.2⟩

/-- Claim C10: the `msg_type` parameter of `wait_for_message` is never read by
the body, so for any two kinds the calls are definitionally equal — callers
passing an expected kind (as the identification handshake does) get no
filtering. -/
theorem c10_msg_type_unused (traceOn prompt : Bool) (t : ℚ) (k1 k2 : Nat)
    (s : SessionState) (o : Option Msg) (w : Nat) :
    wait_for_message traceOn prompt t k1 s o w = wait_for_message traceOn prompt t k2 s o w :=
  rfl

end Pixels
